import Mathlib

/-!
Verification development for the `pyfuelprices` aggregation core.

The Python sources are shallowly embedded:

* `pyfuelprices/__init__.py` — the `FuelPrices` orchestrator:
  `update`, `get_fuel_location`, `find_fuel_locations_from_point`,
  `find_fuel_from_point`.
* `pyfuelprices/sources/france/quechoisir.py` — the `QuechoisirSource`
  provider: `update`, `parse_raw_fuel_station`, `parse_response`,
  `parse_fuels`, `search_sites`.

Python `dict`s are modelled as association lists; mutable object identity
(the provider's `location_cache` holding references to `FuelLocation`
objects mutated in place) is modelled with an explicit address heap;
`async` network calls are modelled as oracle parameters together with an
explicit trace of network operations; Python exceptions are modelled with
`Except`.  Parts of the repository that are referenced but whose files are
not part of this corpus (`FuelLocation.create` / `FuelLocation.update`,
the static `COUNTRY_MAP` table, the geocoding helper and the Python
`float` parser) are modelled from the specification and marked as such in
their doc comments.
-/

deriving instance DecidableEq for Except

namespace PyFuelPrices

/-- Model of Python `str.replace(",", "")` as used on price strings:
every comma is removed. -/
def stripCommas (s : String) : String :=
  ⟨s.data.filter (fun c => decide (c ≠ ','))⟩

/-- ASCII model of Python `str.upper()`, adequate for the country codes
it is applied to. -/
def upperAscii (s : String) : String :=
  ⟨s.data.map (fun c => if 'a' ≤ c ∧ c ≤ 'z' then Char.ofNat (c.toNat - 32) else c)⟩

/-- ASCII model of Python `str.lower()`, adequate for the provider ids it
is applied to. -/
def lowerAscii (s : String) : String :=
  ⟨s.data.map (fun c => if 'A' ≤ c ∧ c ≤ 'Z' then Char.ofNat (c.toNat + 32) else c)⟩

/-- Lookup in an association list (the model of Python `d[k]` /
`k in d` on a `dict`): returns the value of the first pair whose key is
`k`, or `none` when the key is absent. -/
def alist.lookup {κ α : Type} [DecidableEq κ] (k : κ) : List (κ × α) → Option α
  | [] => none
  | p :: ps => if p.1 = k then some p.2 else alist.lookup k ps

/-- In-place overwrite of the value stored under key `k` (the model of
Python `d[k] = v` when `k` is already present): every pair keyed `k` is
replaced by `(k, v)`, all other pairs are untouched. -/
def alist.set {κ α : Type} [DecidableEq κ] (l : List (κ × α)) (k : κ) (v : α) :
    List (κ × α) :=
  l.map (fun p => if p.1 = k then (k, v) else p)

/-- Keys of an association list, in order. -/
def alist.keys {κ α : Type} (l : List (κ × α)) : List κ := l.map Prod.fst

/-- Errors raised by the Python code: `KeyError` (missing `dict` key),
`ValueError` (explicit `raise ValueError(...)`), and the geocode lookup
failure surfaced by the geocoding collaborator. -/
inductive PyErr : Type
  | keyError (key : String)
  | valueError (msg : String)
  | lookupError (msg : String)
deriving DecidableEq

/-- Raw fuel entry of the Quechoisir payload (one element of a station's
`carburants` list): a JSON object modelled as an association list of
field name to the `str(...)` rendering of the field value.  Field access
`fuel["prix"]` is `alist.lookup`, raising `KeyError` when absent. -/
structure RawFuel : Type where
  fields : List (String × String)
deriving DecidableEq

/-- Field access on a raw fuel entry. -/
def RawFuel.get (f : RawFuel) (k : String) : Option String :=
  alist.lookup k f.fields

/-- Raw station record of the Quechoisir payload, with the fields read by
`QuechoisirSource.parse_raw_fuel_station`. -/
structure RawStation : Type where
  id : String
  nom : String
  adresse : String
  lat : Rat
  lon : Rat
  carburants : List RawFuel
deriving DecidableEq

/-- Parsed fuel value object (`Fuel(fuel_type=..., cost=..., props=...)`). -/
structure Fuel : Type where
  fuel_type : String
  cost : Rat
  props : RawFuel
deriving DecidableEq

/-- Mapping `fuel_type → cost` held by a station (a Python `dict`). -/
abbrev FuelMap := List (String × Rat)

/-- Modelled from the spec: `FuelLocation.available_fuels` keeps one entry
per fuel type, merged key-by-key on refresh — values present in `new`
overwrite, fuel types absent from `new` but present in `old` are
retained (`pyfuelprices/fuel_locations.py` is not part of this corpus). -/
def FuelMap.merge (old new : FuelMap) : FuelMap :=
  new ++ old.filter (fun p => decide (p.1 ∉ alist.keys new))

/-- Dict-style insert (the model of Python `d[k] = v`): overwrite in place
when the key is present, append otherwise. -/
def FuelMap.insert (m : FuelMap) (k : String) (v : Rat) : FuelMap :=
  if (alist.keys m).contains k then alist.set m k v else m ++ [(k, v)]

/-- Modelled from the spec: `FuelLocation.create` stores the parsed
`list[Fuel]` as the `available_fuels` mapping `fuel_type → cost`, one
entry per type, last write wins. -/
def fuelListToMap (fs : List Fuel) : FuelMap :=
  fs.foldl (fun m f => FuelMap.insert m f.fuel_type f.cost) []

/-- Raw payload attached to a `FuelLocation` in its `props` mapping by
`QuechoisirSource.parse_raw_fuel_station`: the raw station record, the
`prevent_cache_cleanup` flag, the owning provider id and the
provider-local id. -/
structure LocProps : Type where
  data : RawStation
  prevent_cache_cleanup : Bool
  source : String
  source_id : String
deriving DecidableEq

/-- The canonical station record (`FuelLocation` of
`pyfuelprices/fuel_locations.py`, with the fields used by this corpus). -/
structure FuelLocation : Type where
  id : String
  name : String
  address : String
  postal_code : String
  lat : Rat
  long : Rat
  brand : String
  currency : String
  available_fuels : FuelMap
  next_update : Nat
  props : LocProps
deriving DecidableEq

/-- Modelled from the spec: `FuelLocation.update(new)` mutates the existing
object in place — every field is overwritten with the new value except
`available_fuels`, which is merged key-by-key
(`pyfuelprices/fuel_locations.py` is not part of this corpus). -/
def FuelLocation.update (old new : FuelLocation) : FuelLocation :=
  { new with available_fuels := FuelMap.merge old.available_fuels new.available_fuels }

/-- Geographic area (`{PROP_AREA_LAT: .., PROP_AREA_LONG: ..}`). -/
structure Area : Type where
  lat : Rat
  long : Rat
deriving DecidableEq

/-- Address record returned by the geocoding collaborator
(`geocode.raw["address"]`), restricted to the fields this corpus reads. -/
structure GeoAddress : Type where
  country_code : String
  postcode : String
deriving DecidableEq

/-- State of a `QuechoisirSource` instance.  The Python `location_cache`
is a `dict` from site id to a mutable `FuelLocation` object; object
identity is made explicit by routing it through a heap: `location_cache`
maps a site id to an address, `heap` maps addresses to the current
`FuelLocation` value, and `nextAddr` is the next fresh address.
`next_update` models the `self.next_update` timestamp attached to newly
parsed locations, and `configured_areas` models `self._configured_areas`. -/
structure SrcState : Type where
  location_cache : List (String × Nat)
  heap : List (Nat × FuelLocation)
  nextAddr : Nat
  next_update : Nat
  configured_areas : List Area
deriving DecidableEq

/-- Record returned by `search_sites`: `{**site.__dict__(), "distance": dist}`. -/
structure LocatedSite : Type where
  site : FuelLocation
  distance : Rat
deriving DecidableEq

namespace QuechoisirSource

/-- The `provider_name` class attribute. -/
def provider_name : String := "quechoisir"

/-- Embedding of `QuechoisirSource.parse_fuels` (quechoisir.py lines
124-139).  The abstract parameter `pfloat` models Python `float(...)`:
`none` models a raised `ValueError`, which is the only exception the
`try`/`except ValueError` block catches — it skips the entry and
continues.  A missing `"prix"` or `"nom"` key raises `KeyError`, which is
not caught and aborts the whole call.  The cost is
`float(str(fuel["prix"]).replace(",", "")) / 1000`. -/
def parse_fuels (pfloat : String → Option Rat) :
    List RawFuel → Except PyErr (List Fuel)
  | [] => .ok []
  | fuel :: rest =>
    match fuel.get "prix" with
    | none => .error (.keyError "prix")
    | some p =>
      match pfloat (stripCommas p) with
      | none => parse_fuels pfloat rest
      | some v =>
        match fuel.get "nom" with
        | none => .error (.keyError "nom")
        | some nom =>
          (parse_fuels pfloat rest).map (fun fs => ⟨nom, v / 1000, fuel⟩ :: fs)

/-- Embedding of `QuechoisirSource.parse_raw_fuel_station` (quechoisir.py
lines 91-117): build the `FuelLocation` via `FuelLocation.create`; if the
site id is not yet in `location_cache`, insert it; otherwise merge into
the existing object in place via `FuelLocation.update` and return the
existing object (here: its heap address). -/
def parse_raw_fuel_station (pfloat : String → Option Rat) (st : SrcState)
    (station : RawStation) : Except PyErr (SrcState × Nat) :=
  let site_id := provider_name ++ "_" ++ station.id
  match parse_fuels pfloat station.carburants with
  | .error e => .error e
  | .ok fuels =>
    let loc : FuelLocation :=
      { id := site_id
        name := station.nom
        address := station.adresse
        lat := station.lat
        long := station.lon
        brand := "Unknown"
        currency := "EUR"
        postal_code := "See address"
        available_fuels := fuelListToMap fuels
        next_update := st.next_update
        props :=
          { data := station
            prevent_cache_cleanup := true
            source := provider_name
            source_id := station.id } }
    match alist.lookup site_id st.location_cache with
    | none =>
      .ok ({ st with
              location_cache := st.location_cache ++ [(site_id, st.nextAddr)]
              heap := st.heap ++ [(st.nextAddr, loc)]
              nextAddr := st.nextAddr + 1 },
           st.nextAddr)
    | some a =>
      match alist.lookup a st.heap with
      | none => .error (.keyError site_id)
      | some old =>
        .ok ({ st with heap := alist.set st.heap a (FuelLocation.update old loc) }, a)

/-- Embedding of `QuechoisirSource.update` (quechoisir.py lines 61-89).
The network boundary is abstracted by oracles: `geocodeA` models
`geocode_reverse_lookup` on an area, `lookupCid` models
`lookup_commune_id` for a postcode, and `fetchStations` models the
`get_gas_station` request followed by `json.loads`, returning the decoded
station list (`none` models a failed request).  The loop body mirrors the
source exactly: non-French or failed lookups `continue`, and a fetched
payload is decoded into `_stations` — which the source then discards
without calling `parse_response`, so `location_cache` is never written. -/
def update (geocodeA : Area → Option GeoAddress)
    (lookupCid : String → Option String)
    (fetchStations : String → String → Option (List RawStation))
    (st : SrcState) (areas : Option (List Area)) : SrcState :=
  let st0 := { st with configured_areas := areas.getD [] }
  st0.configured_areas.foldl (fun acc area =>
    match geocodeA area with
    | none => acc
    | some g =>
      if g.country_code ≠ "fr" then acc
      else
        match lookupCid g.postcode with
        | none => acc
        | some cid =>
          match fetchStations g.postcode cid with
          | none => acc
          | some _stations => acc) st0

/-- Embedding of `QuechoisirSource.parse_response` (quechoisir.py lines
119-122): parse every station of the payload into the cache and return
the cached locations.  This method exists in the source but is never
invoked by `update`. -/
def parse_response (pfloat : String → Option Rat) (st : SrcState)
    (stations : List RawStation) : Except PyErr SrcState :=
  stations.foldlM (fun acc station =>
    (parse_raw_fuel_station pfloat acc station).map Prod.fst) st

/-- Locations held in `location_cache` (`self.location_cache.values()`),
each cache entry dereferenced through the heap. -/
def cacheValues (st : SrcState) : List FuelLocation :=
  st.location_cache.filterMap (fun p => alist.lookup p.2 st.heap)

/-- Embedding of `QuechoisirSource.search_sites` (quechoisir.py lines
141-162): first run `update` on the single area formed from the
coordinates, then return every cached location whose distance from the
coordinates is strictly below `radius`, augmented with that distance.
The geodesic distance computation (`geopy.distance.distance(..).miles`)
is abstracted as the oracle `dist`. -/
def search_sites (geocodeA : Area → Option GeoAddress)
    (lookupCid : String → Option String)
    (fetchStations : String → String → Option (List RawStation))
    (dist : Rat × Rat → Rat × Rat → Rat)
    (st : SrcState) (coordinates : Rat × Rat) (radius : Rat) :
    SrcState × List LocatedSite :=
  let st1 := update geocodeA lookupCid fetchStations st
    (some [{ lat := coordinates.1, long := coordinates.2 }])
  (st1, (cacheValues st1).filterMap (fun site =>
    let d := dist coordinates (site.lat, site.long)
    if d < radius then some ⟨site, d⟩ else none))

end QuechoisirSource

/-- Network operation performed by the orchestrator: the geocode reverse
lookup, a `search_sites` call into a provider, or a `get_site` call into
a provider.  `find_fuel_*` traces record these so that "performs no
network I/O" is a statement about the trace. -/
inductive NetOp : Type
  | geocodeLookup
  | searchSites (source_id : String)
  | getSite (source_id : String) (site_id : String)
deriving DecidableEq

/-- Record appended to the result list of `find_fuel_from_point`
(`{"name": .., "cost": .., "distance": ..}`). -/
structure FuelRec : Type where
  name : String
  cost : Rat
  distance : Rat
deriving DecidableEq

/-- Orchestrator state (`FuelPrices`): the ids of the configured sources
(the keys of `configured_sources`; per-source behaviour enters through
oracles) and the `_accessed_sites` dispatch cache mapping site id to
provider id. -/
structure Orchestrator : Type where
  configured_sources : List String
  accessed_sites : List (String × String)
deriving DecidableEq

namespace FuelPrices

/-- Embedding of `FuelPrices.get_fuel_location` (\_\_init\_\_.py lines
57-61): if the site id is not yet in `_accessed_sites`, record
`site_id -> source_id` there; then look `source_id` up in
`configured_sources` — an unknown id raises `KeyError` with no network
call, otherwise the provider's `get_site` is awaited (oracle `getSite`,
traced as a network operation). -/
def get_fuel_location (getSite : String → String → Except PyErr FuelLocation)
    (o : Orchestrator) (site_id source_id : String) :
    Orchestrator × List NetOp × Except PyErr FuelLocation :=
  let o1 :=
    if site_id ∈ alist.keys o.accessed_sites then o
    else { o with accessed_sites := o.accessed_sites ++ [(site_id, source_id)] }
  if source_id ∈ o1.configured_sources then
    (o1, [.getSite source_id site_id], getSite source_id site_id)
  else
    (o1, [], .error (.keyError source_id))

/-- Embedding of `FuelPrices.find_fuel_locations_from_point`
(\_\_init\_\_.py lines 63-88).  `geocode` models
`geocode_reverse_lookup(coordinates)` (`none` models a failed lookup),
`searchSites src` models `configured_sources[src].search_sites(...)`, and
`country_map` is the static `COUNTRY_MAP` table, modelled from the spec
as an association list from country code to provider ids
(`pyfuelprices/sources/mapping.py` is not part of this corpus).  With an
explicit `source_id` the call dispatches directly — an unknown id raises
`KeyError` before any network call.  Otherwise the reverse geocode runs;
a country absent from `COUNTRY_MAP` raises
`ValueError("No data source exists for the given coordinates.", ..)`, and
a mapped country returns the concatenation of `search_sites` over the
mapped providers that are configured. -/
def find_fuel_locations_from_point
    (geocode : Rat × Rat → Option GeoAddress)
    (searchSites : String → Rat × Rat → Rat → List LocatedSite)
    (country_map : List (String × List String))
    (o : Orchestrator) (coordinates : Rat × Rat) (radius : Rat)
    (source_id : String) : List NetOp × Except PyErr (List LocatedSite) :=
  if source_id ≠ "" then
    if source_id ∈ o.configured_sources then
      ([.searchSites source_id], .ok (searchSites source_id coordinates radius))
    else
      ([], .error (.keyError source_id))
  else
    match geocode coordinates with
    | none => ([.geocodeLookup], .error (.lookupError "geocode reverse lookup failed"))
    | some addr =>
      match alist.lookup (upperAscii addr.country_code) country_map with
      | none =>
        ([.geocodeLookup],
         .error (.valueError "No data source exists for the given coordinates."))
      | some srcs =>
        let hits := srcs.filter (fun src => decide (src ∈ o.configured_sources))
        (.geocodeLookup :: hits.map .searchSites,
         .ok (hits.flatMap (fun src => searchSites src coordinates radius)))

/-- One record per matching fuel of one location, as produced by the
collection loop of `find_fuel_from_point` (\_\_init\_\_.py lines
112-123): iterate the keys of `loc["available_fuels"]`, and for a key
equal to `fuel_type` whose looked-up cost is strictly positive append
`{"name": .., "cost": .., "distance": ..}`. -/
def locFuelRecords (fuel_type : String) (l : LocatedSite) : List FuelRec :=
  (alist.keys l.site.available_fuels).filterMap (fun k =>
    if k = fuel_type then
      match alist.lookup k l.site.available_fuels with
      | some c => if 0 < c then some ⟨l.site.name, c, l.distance⟩ else none
      | none => none
    else none)

/-- Stable insertion of a record into a cost-sorted list: the new record
goes after every record whose cost is less than or equal to its own. -/
def sortedInsertByCost (r : FuelRec) : List FuelRec → List FuelRec
  | [] => [r]
  | x :: xs => if x.cost ≤ r.cost then x :: sortedInsertByCost r xs else r :: x :: xs

/-- Embedding of Python `sorted(fuels, key=lambda item: item["cost"])`:
a stable ascending sort by `cost`.  CPython's sort is extensionally
determined by being a permutation, sorted by the key, and stable, and
those three properties uniquely determine the output, so this executable
left-to-right insertion sort is the same function; the three properties
are proved below. -/
def sortByCost (l : List FuelRec) : List FuelRec :=
  l.foldl (fun acc r => sortedInsertByCost r acc) []

/-- The pure tail of `find_fuel_from_point` (\_\_init\_\_.py lines
111-124): collect the matching fuel records of every location and return
them sorted ascending by `cost`. -/
def find_fuel_from_point_fuels (locations : List LocatedSite)
    (fuel_type : String) : List FuelRec :=
  sortByCost (locations.flatMap (locFuelRecords fuel_type))

/-- The `dynamic_build` fan-out of `find_fuel_from_point` (\_\_init\_\_.py
lines 96-110): one `get_fuel_location(l["id"],
str(l["props"]["source"]).lower())` call per location, gathered; an
exception raised by any task propagates (modelled as the first error of
the sequential linearization). -/
def dynamic_build_all (getSite : String → String → Except PyErr FuelLocation) :
    Orchestrator → List NetOp → List LocatedSite →
    Orchestrator × List NetOp × Option PyErr
  | o, effs, [] => (o, effs, none)
  | o, effs, l :: rest =>
    let r := get_fuel_location getSite o l.site.id (lowerAscii l.site.props.source)
    match r.2.2 with
    | .error e => (r.1, effs ++ r.2.1, some e)
    | .ok _ => dynamic_build_all getSite r.1 (effs ++ r.2.1) rest

/-- Embedding of `FuelPrices.find_fuel_from_point` (\_\_init\_\_.py lines
90-124): obtain the locations via `find_fuel_locations_from_point`, fan
out `dynamic_build` per location, record each location's owning provider
in `_accessed_sites`, then filter, project and sort. -/
def find_fuel_from_point
    (geocode : Rat × Rat → Option GeoAddress)
    (searchSites : String → Rat × Rat → Rat → List LocatedSite)
    (getSite : String → String → Except PyErr FuelLocation)
    (country_map : List (String × List String))
    (o : Orchestrator) (coordinates : Rat × Rat) (radius : Rat)
    (fuel_type : String) (source_id : String) :
    Orchestrator × List NetOp × Except PyErr (List FuelRec) :=
  match find_fuel_locations_from_point geocode searchSites country_map o
      coordinates radius source_id with
  | (effs, .error e) => (o, effs, .error e)
  | (effs, .ok locations) =>
    match dynamic_build_all getSite o effs locations with
    | (o1, effs1, some e) => (o1, effs1, .error e)
    | (o1, effs1, none) =>
      let o2 := locations.foldl (fun oc l =>
        if l.site.id ∈ alist.keys oc.accessed_sites then oc
        else { oc with
                accessed_sites := oc.accessed_sites ++ [(l.site.id, l.site.props.source)] })
        o1
      (o2, effs1, .ok (find_fuel_from_point_fuels locations fuel_type))

end FuelPrices

/-- Outcome of one provider's `Source.update(areas, force)` call for one
refresh round: success with a new cache value, a raised `TimeoutError`
with its message, or any other raised exception. -/
inductive UpdOutcome (σ : Type) : Type
  | ok (new : σ)
  | timeout (msg : String)
  | raise (e : PyErr)
deriving DecidableEq

/-- One configured provider as seen by the `FuelPrices.update` fan-out:
its `provider_name`, its current cache value, and the outcome its
`update` call produces this round. -/
structure SourceModel (σ : Type) : Type where
  provider_name : String
  cache : σ
  upd : UpdOutcome σ
deriving DecidableEq

namespace FuelPrices

/-- The warning logged by `update_src` for a timed-out provider. -/
def timeoutWarning (name msg : String) : String :=
  "Timeout updating " ++ name ++ ": " ++ msg

/-- Embedding of the inner `update_src` coroutine of `FuelPrices.update`
(\_\_init\_\_.py lines 45-51): await the provider's update inside
`try`/`except TimeoutError` — a timeout is caught and turned into a
logged warning, success applies the new cache, and any other exception
propagates out of the task. -/
def update_src {σ : Type} (s : SourceModel σ) :
    Except PyErr (SourceModel σ × Option String) :=
  match s.upd with
  | .ok c => .ok ({ s with cache := c }, none)
  | .timeout m => .ok (s, some (timeoutWarning s.provider_name m))
  | .raise e => .error e

/-- Model of `asyncio.gather(*coros)`: all results collected; an
exception raised by any coroutine propagates to the caller. -/
def gatherExcept {α : Type} : List (Except PyErr α) → Except PyErr (List α)
  | [] => .ok []
  | .error e :: _ => .error e
  | .ok a :: rest => (gatherExcept rest).map (fun as => a :: as)

/-- Embedding of `FuelPrices.update` (\_\_init\_\_.py lines 43-55): one
`update_src` task per configured source, gathered; the call returns the
refreshed sources together with the list of logged timeout warnings. -/
def update {σ : Type} (sources : List (SourceModel σ)) :
    Except PyErr (List (SourceModel σ) × List String) :=
  (gatherExcept (sources.map update_src)).map
    (fun rs => (rs.map Prod.fst, rs.filterMap Prod.snd))

/-- Which limiter instance each fanned-out task of `FuelPrices.update`
acquires.  The source constructs `asyncio.Semaphore(4)` inside the task
body (\_\_init\_\_.py line 48), so task `i` gets its own fresh instance,
here named `i`. -/
def update_task_limiter (i : Nat) : Nat := i

/-- The capacity passed to `asyncio.Semaphore` in `update_src`
(\_\_init\_\_.py line 48). -/
def update_limiter_capacity : Nat := 4

/-- Which limiter instance each `dynamic_build` task of
`find_fuel_from_point` acquires.  The source constructs
`asyncio.Semaphore(5)` inside the task body (\_\_init\_\_.py line 98), so
task `i` gets its own fresh instance, here named `i`. -/
def dynamic_build_task_limiter (i : Nat) : Nat := i

/-- The capacity passed to `asyncio.Semaphore` in `dynamic_build`
(\_\_init\_\_.py line 98). -/
def dynamic_build_limiter_capacity : Nat := 5

/-- A set of tasks may hold their semaphore permits simultaneously iff,
for every limiter instance in use, the number of those tasks holding that
instance does not exceed its capacity. -/
def admissibleConcurrent (limiterOf : Nat → Nat) (cap : Nat)
    (running : Finset Nat) : Prop :=
  ∀ inst ∈ running.image limiterOf,
    (running.filter (fun i => limiterOf i = inst)).card ≤ cap

instance (limiterOf : Nat → Nat) (cap : Nat) (running : Finset Nat) :
    Decidable (admissibleConcurrent limiterOf cap running) := by
  unfold admissibleConcurrent
  infer_instance

end FuelPrices

/-- Whether the outcome is an uncaught (non-timeout) exception. -/
def UpdOutcome.isRaise {σ : Type} : UpdOutcome σ → Bool
  | .raise _ => true
  | _ => false

/-- Spec-side projection for the `find_fuel_from_point` contract,
following the claim's wording: a location contributes exactly one record
`{name, cost, distance}` when its `available_fuels` has an entry for
`fuel_type` with a strictly positive cost, and no record otherwise.  It
is compared below against the embedded code. -/
def specQualifyingRecord (fuel_type : String) (l : LocatedSite) : Option FuelRec :=
  match alist.lookup fuel_type l.site.available_fuels with
  | some c => if 0 < c then some ⟨l.site.name, c, l.distance⟩ else none
  | none => none

/-! ## Concrete inputs used by witnesses and counterexamples -/

/-- Concrete instance of the abstract `float(...)` parser, agreeing with
Python `float` on the price strings it is applied to below. -/
def pfloatEx : String → Option Rat :=
  fun s => if s = "1599" then some 1599 else if s = "1499" then some 1499 else none

def exRawFuelE10 : RawFuel := ⟨[("nom", "E10"), ("prix", "1599")]⟩

/-- A raw fuel entry with no `"prix"` key at all. -/
def exRawFuelNoPrix : RawFuel := ⟨[("nom", "Gazole")]⟩

/-- A raw fuel entry whose price string does not parse as a float. -/
def exRawFuelBadPrice : RawFuel := ⟨[("nom", "Gazole"), ("prix", "indisponible")]⟩

def exRawFuelSP98 : RawFuel := ⟨[("nom", "SP98"), ("prix", "1499")]⟩

def exStation : RawStation :=
  ⟨"1", "Station Alpha", "1 Rue de la Paix", 48, 2, [exRawFuelE10]⟩

def exGeocodeFR : Area → Option GeoAddress := fun _ => some ⟨"fr", "75001"⟩

def exLookupCid : String → Option String := fun _ => some "communeId42"

def exFetchOne : String → String → Option (List RawStation) := fun _ _ => some [exStation]

def exEmptySrc : SrcState := ⟨[], [], 0, 100, []⟩

/-- The source state produced by the first parse of `exStation` from the
empty source state. -/
def exSt1 : SrcState :=
  ((QuechoisirSource.parse_raw_fuel_station pfloatEx exEmptySrc exStation).toOption.map
    Prod.fst).getD exEmptySrc

def exSiteFar : FuelLocation :=
  { id := "quechoisir_far", name := "Station Far", address := "2 Rue Haute"
    postal_code := "See address", lat := 5, long := 5, brand := "Unknown"
    currency := "EUR", available_fuels := [("E10", 150)], next_update := 100
    props := ⟨exStation, true, "quechoisir", "far"⟩ }

def exSiteNear : FuelLocation :=
  { id := "quechoisir_near", name := "Station Near", address := "3 Rue Basse"
    postal_code := "See address", lat := 1, long := 1, brand := "Unknown"
    currency := "EUR", available_fuels := [("E10", 130)], next_update := 100
    props := ⟨exStation, true, "quechoisir", "near"⟩ }

def exSrcTwoSites : SrcState :=
  ⟨[("quechoisir_far", 0), ("quechoisir_near", 1)],
   [(0, exSiteFar), (1, exSiteNear)], 2, 100, []⟩

def exGeocodeNone : Area → Option GeoAddress := fun _ => none

def exFetchNone : String → String → Option (List RawStation) := fun _ _ => none

/-- Distance oracle placing the site at coordinates `(5, 5)` exactly 5
miles away and every other site 4 miles away. -/
def exDist : Rat × Rat → Rat × Rat → Rat := fun _ p => if p = (5, 5) then 5 else 4

def exSiteA : FuelLocation :=
  { id := "quechoisir_a", name := "Station A", address := "4 Rue Nord"
    postal_code := "See address", lat := 1, long := 1, brand := "Unknown"
    currency := "EUR", available_fuels := [("E10", 150)], next_update := 100
    props := ⟨exStation, true, "quechoisir", "a"⟩ }

def exSiteB : FuelLocation :=
  { id := "quechoisir_b", name := "Station B", address := "5 Rue Sud"
    postal_code := "See address", lat := 2, long := 2, brand := "Unknown"
    currency := "EUR", available_fuels := [("E10", 130)], next_update := 100
    props := ⟨exStation, true, "quechoisir", "b"⟩ }

def exLocs : List LocatedSite := [⟨exSiteA, 1⟩, ⟨exSiteB, 2⟩]

def exSearchSites : String → Rat × Rat → Rat → List LocatedSite := fun _ _ _ => exLocs

def exGetSite : String → String → Except PyErr FuelLocation := fun _ _ => .ok exSiteA

def exGeoPointNone : Rat × Rat → Option GeoAddress := fun _ => none

def exGeoPointFR : Rat × Rat → Option GeoAddress := fun _ => some ⟨"fr", "75001"⟩

def exGeoPointZZ : Rat × Rat → Option GeoAddress := fun _ => some ⟨"zz", "00000"⟩

/-- Concrete model instance of the static `COUNTRY_MAP` table: France is
covered by the `quechoisir` provider. -/
def exCountryMapFR : List (String × List String) := [("FR", ["quechoisir"])]

def exOrchQ : Orchestrator := ⟨["quechoisir"], []⟩

def exOrchEmpty : Orchestrator := ⟨[], []⟩

def exSources : List (SourceModel Nat) :=
  [⟨"alpha", 0, .ok 7⟩, ⟨"beta", 1, .timeout "deadline exceeded"⟩]

/-- Expected result of the concrete `find_fuel_from_point` run: the two
matching records sorted ascending by cost, the cheaper station first. -/
def exRes : List FuelRec := [⟨"Station B", 130, 2⟩, ⟨"Station A", 150, 1⟩]

/-- Orchestrator state after the concrete `find_fuel_from_point` run:
both sites recorded in `_accessed_sites`. -/
def exOrchRes : Orchestrator :=
  ⟨["quechoisir"],
   [("quechoisir_a", "quechoisir"), ("quechoisir_b", "quechoisir")]⟩

/-- Network trace of the concrete `find_fuel_from_point` run. -/
def exEffs : List NetOp :=
  [.searchSites "quechoisir", .getSite "quechoisir" "quechoisir_a",
   .getSite "quechoisir" "quechoisir_b"]

/-! ## Helper lemmas -/

theorem alist.lookup_eq_none_iff {κ α : Type} [DecidableEq κ] (k : κ)
    (l : List (κ × α)) : alist.lookup k l = none ↔ k ∉ alist.keys l := by
  induction l with
  | nil => simp [alist.lookup, alist.keys]
  | cons p ps ih =>
    simp only [alist.lookup, alist.keys, List.map_cons, List.mem_cons]
    by_cases h : p.1 = k
    · simp [h]
    · rw [if_neg h, ih]
      unfold alist.keys
      constructor
      · intro hk hc
        rcases hc with hc | hc
        · exact h hc.symm
        · exact hk hc
      · intro hk hc
        exact hk (Or.inr hc)

theorem alist.lookup_append_of_none {κ α : Type} [DecidableEq κ] (k : κ)
    {l₁ : List (κ × α)} (l₂ : List (κ × α)) (h : alist.lookup k l₁ = none) :
    alist.lookup k (l₁ ++ l₂) = alist.lookup k l₂ := by
  induction l₁ with
  | nil => simp
  | cons p ps ih =>
    by_cases hp : p.1 = k
    · simp [alist.lookup, hp] at h
    · simp [alist.lookup, hp] at h ⊢
      exact ih h

theorem alist.lookup_set_eq {κ α : Type} [DecidableEq κ] (k : κ) (v : α)
    (l : List (κ × α)) :
    alist.lookup k (alist.set l k v) = (alist.lookup k l).map (fun _ => v) := by
  induction l with
  | nil => simp [alist.lookup, alist.set]
  | cons p ps ih =>
    by_cases hp : p.1 = k
    · simp [alist.set, alist.lookup, hp]
    · simp only [alist.set, List.map_cons, if_neg hp, alist.lookup]
      exact ih

theorem alist.set_eq_self {κ α : Type} [DecidableEq κ] {k : κ} {v : α}
    {l : List (κ × α)} (h : ∀ p ∈ l, p.1 = k → p.2 = v) :
    alist.set l k v = l := by
  induction l with
  | nil => rfl
  | cons p ps ih =>
    have hps : ∀ q ∈ ps, q.1 = k → q.2 = v :=
      fun q hq => h q (List.mem_cons_of_mem _ hq)
    have hih := ih hps
    by_cases hp : p.1 = k
    · have hv : p.2 = v := h p (List.mem_cons_self _ _) hp
      calc alist.set (p :: ps) k v = (k, v) :: alist.set ps k v := by
            simp [alist.set, hp]
        _ = p :: ps := by
            rw [hih]
            congr 1
            rw [Prod.ext_iff]
            exact ⟨hp.symm, hv.symm⟩
    · calc alist.set (p :: ps) k v = p :: alist.set ps k v := by
            simp [alist.set, hp]
        _ = p :: ps := by rw [hih]

theorem alist.mem_of_mem_set {κ α : Type} [DecidableEq κ] {k : κ} {v : α}
    {l : List (κ × α)} {q : κ × α} (hq : q ∈ alist.set l k v) (hk : q.1 = k) :
    q.2 = v := by
  simp only [alist.set, List.mem_map] at hq
  obtain ⟨p, hpl, hp⟩ := hq
  by_cases h : p.1 = k
  · rw [if_pos h] at hp
    rw [← hp]
  · rw [if_neg h] at hp
    rw [← hp] at hk
    exact absurd hk h

theorem FuelMap.filter_not_keys_self (m : FuelMap) :
    m.filter (fun p => decide (p.1 ∉ alist.keys m)) = [] := by
  rw [List.filter_eq_nil_iff]
  intro p hp
  simp only [decide_eq_true_eq, Decidable.not_not, alist.keys]
  exact List.mem_map_of_mem Prod.fst hp

theorem FuelMap.merge_self (m : FuelMap) : FuelMap.merge m m = m := by
  unfold FuelMap.merge
  rw [FuelMap.filter_not_keys_self, List.append_nil]

theorem FuelMap.merge_merge_self (old new : FuelMap) :
    FuelMap.merge (FuelMap.merge old new) new = FuelMap.merge old new := by
  unfold FuelMap.merge
  rw [List.filter_append, FuelMap.filter_not_keys_self, List.filter_filter]
  simp

theorem FuelLocation.update_self_of_update (old new : FuelLocation) :
    FuelLocation.update (FuelLocation.update old new) new =
      FuelLocation.update old new := by
  simp [FuelLocation.update, FuelMap.merge_merge_self]

theorem FuelLocation.update_self (l : FuelLocation) :
    FuelLocation.update l l = l := by
  simp [FuelLocation.update, FuelMap.merge_self]

theorem QuechoisirSource.update_eq (geocodeA : Area → Option GeoAddress)
    (lookupCid : String → Option String)
    (fetchStations : String → String → Option (List RawStation))
    (st : SrcState) (areas : Option (List Area)) :
    QuechoisirSource.update geocodeA lookupCid fetchStations st areas
      = { st with configured_areas := areas.getD [] } := by
  have key : ∀ (l : List Area) (acc : SrcState),
      List.foldl (fun acc area =>
        match geocodeA area with
        | none => acc
        | some g =>
          if g.country_code ≠ "fr" then acc
          else
            match lookupCid g.postcode with
            | none => acc
            | some cid =>
              match fetchStations g.postcode cid with
              | none => acc
              | some _stations => acc) acc l = acc := by
    intro l
    induction l with
    | nil => intro acc; rfl
    | cons a as ih =>
      intro acc
      rw [List.foldl_cons]
      have hstep : (match geocodeA a with
        | none => acc
        | some g =>
          if g.country_code ≠ "fr" then acc
          else
            match lookupCid g.postcode with
            | none => acc
            | some cid =>
              match fetchStations g.postcode cid with
              | none => acc
              | some _stations => acc) = acc := by
        cases geocodeA a with
        | none => rfl
        | some g =>
          dsimp only
          by_cases hfr : g.country_code ≠ "fr"
          · rw [if_pos hfr]
          · rw [if_neg hfr]
            cases lookupCid g.postcode with
            | none => rfl
            | some cid =>
              dsimp only
              cases fetchStations g.postcode cid with
              | none => rfl
              | some s => rfl
      rw [hstep]
      exact ih acc
  exact key _ _

/-! ## Claim theorems -/

/-- **C2** (code bug): `QuechoisirSource.update` fetches and decodes the
payload for an area but never calls `parse_response`, so a station
present in a successfully fetched payload is *not* inserted into
`location_cache`: from the empty cache, after an update round whose
oracles geocode the area to France, resolve a commune id and fetch a
payload containing station `"1"`, the cache is still empty — while
`parse_response` applied to that same payload would have inserted the
site `"quechoisir_1"`. -/
theorem quechoisir_update_never_populates_cache :
    (QuechoisirSource.update exGeocodeFR exLookupCid exFetchOne exEmptySrc
        (some [⟨48, 2⟩])).location_cache = []
    ∧ ((QuechoisirSource.parse_response pfloatEx exEmptySrc [exStation]).toOption.map
        (fun st => (alist.lookup "quechoisir_1" st.location_cache).isSome)) = some true := by
  constructor
  · rw [QuechoisirSource.update_eq]
    rfl
  · rfl

/-- **C6** (code bug): each fanned-out task constructs its own fresh
`asyncio.Semaphore` inside the task body, so the per-task semaphore
constraints admit *all* tasks of one fan-out holding permits at once:
with 5 source-refresh tasks (capacity 4) the schedule running all 5
concurrently is admissible, and likewise all 6 of 6 `dynamic_build`
tasks (capacity 5); a single limiter shared across the tasks, as the
claim requires, would reject exactly these schedules. -/
theorem per_task_semaphore_gives_no_throttling :
    FuelPrices.admissibleConcurrent FuelPrices.update_task_limiter
        FuelPrices.update_limiter_capacity (Finset.range 5)
    ∧ FuelPrices.update_limiter_capacity < (Finset.range 5).card
    ∧ ¬ FuelPrices.admissibleConcurrent (fun _ => 0)
        FuelPrices.update_limiter_capacity (Finset.range 5)
    ∧ FuelPrices.admissibleConcurrent FuelPrices.dynamic_build_task_limiter
        FuelPrices.dynamic_build_limiter_capacity (Finset.range 6)
    ∧ FuelPrices.dynamic_build_limiter_capacity < (Finset.range 6).card
    ∧ ¬ FuelPrices.admissibleConcurrent (fun _ => 0)
        FuelPrices.dynamic_build_limiter_capacity (Finset.range 6) := by
  decide

theorem FuelPrices.gather_update_src {σ : Type} (sources : List (SourceModel σ))
    (h : ∀ s ∈ sources, s.upd.isRaise = false) :
    FuelPrices.gatherExcept (sources.map FuelPrices.update_src)
      = .ok (sources.map (fun s =>
          (match s.upd with
            | .ok c => ({ s with cache := c }, (none : Option String))
            | .timeout m => (s, some (FuelPrices.timeoutWarning s.provider_name m))
            | .raise _ => (s, none)))) := by
  induction sources with
  | nil => rfl
  | cons s ss ih =>
    have hs := h s (List.mem_cons_self _ _)
    have hss := ih (fun t ht => h t (List.mem_cons_of_mem _ ht))
    cases hupd : s.upd with
    | ok c =>
      simp only [List.map_cons, FuelPrices.update_src, hupd, FuelPrices.gatherExcept,
        hss, Except.map]
    | timeout m =>
      simp only [List.map_cons, FuelPrices.update_src, hupd, FuelPrices.gatherExcept,
        hss, Except.map]
    | raise e =>
      rw [hupd] at hs
      exact absurd hs (by simp [UpdOutcome.isRaise])

/-- **C5**: when every source's `update` either succeeds or raises a
timeout (any other upstream failure being absorbed inside the `Source`
per its contract), `FuelPrices.update` returns normally: each timed-out
source is kept unchanged and contributes exactly one logged warning,
each succeeding source's cache refresh is applied, and no exception
escapes the gathered fan-out. -/
theorem fuelprices_update_absorbs_timeouts {σ : Type}
    (sources : List (SourceModel σ))
    (h : ∀ s ∈ sources, s.upd.isRaise = false) :
    FuelPrices.update sources = .ok
      (sources.map (fun s => match s.upd with
        | .ok c => { s with cache := c }
        | _ => s),
       sources.filterMap (fun s => match s.upd with
        | .timeout m => some (FuelPrices.timeoutWarning s.provider_name m)
        | _ => none)) := by
  unfold FuelPrices.update
  rw [FuelPrices.gather_update_src sources h]
  simp only [Except.map, List.map_map, List.filterMap_map]
  congr 1
  rw [Prod.ext_iff]
  constructor
  · apply List.map_congr_left
    intro s _
    simp only [Function.comp_apply]
    cases s.upd <;> rfl
  · apply List.filterMap_congr
    intro s _
    simp only [Function.comp_apply]
    cases s.upd <;> rfl

/-- Witness for C5: a concrete two-source round in which `alpha` succeeds
and `beta` times out — the call returns normally with `alpha` refreshed,
`beta` untouched and one logged warning. -/
theorem fuelprices_update_absorbs_timeouts_witness :
    FuelPrices.update exSources = .ok
      ([⟨"alpha", 7, .ok 7⟩, ⟨"beta", 1, .timeout "deadline exceeded"⟩],
       ["Timeout updating beta: deadline exceeded"]) :=
  (fuelprices_update_absorbs_timeouts exSources (by decide)).trans rfl

theorem alist.lookup_append_singleton {κ α : Type} [DecidableEq κ] {k : κ} (v : α)
    {l : List (κ × α)} (h : alist.lookup k l = none) :
    alist.lookup k (l ++ [(k, v)]) = some v := by
  rw [alist.lookup_append_of_none k _ h]
  simp [alist.lookup]

/-- **C10**: `get_fuel_location` inserts `site_id -> source_id` into
`_accessed_sites` before `configured_sources` is consulted, so for a
fresh site id the mapping is present in the resulting state — and it
persists even when `source_id` is not configured and the call then fails
with the `KeyError`. -/
theorem get_fuel_location_records_site_before_lookup
    (getSite : String → String → Except PyErr FuelLocation)
    (o : Orchestrator) (site_id source_id : String)
    (h : site_id ∉ alist.keys o.accessed_sites) :
    alist.lookup site_id
        (FuelPrices.get_fuel_location getSite o site_id source_id).1.accessed_sites
      = some source_id
    ∧ (source_id ∉ o.configured_sources →
        (FuelPrices.get_fuel_location getSite o site_id source_id).2.2
          = .error (.keyError source_id)) := by
  have hnone : alist.lookup site_id o.accessed_sites = none :=
    (alist.lookup_eq_none_iff _ _).mpr h
  unfold FuelPrices.get_fuel_location
  rw [if_neg h]
  dsimp only
  constructor
  · by_cases hc : source_id ∈ o.configured_sources
    · rw [if_pos hc]
      exact alist.lookup_append_singleton _ hnone
    · rw [if_neg hc]
      exact alist.lookup_append_singleton _ hnone
  · intro hc
    rw [if_neg hc]

/-- Witness for C10: looking up the unconfigured source `"nosuch"` for
the fresh site `"site9"` records the mapping and then fails. -/
theorem get_fuel_location_records_site_witness :
    alist.lookup "site9"
        (FuelPrices.get_fuel_location exGetSite exOrchQ "site9" "nosuch").1.accessed_sites
      = some "nosuch"
    ∧ (FuelPrices.get_fuel_location exGetSite exOrchQ "site9" "nosuch").2.2
      = .error (.keyError "nosuch") := by
  have h := get_fuel_location_records_site_before_lookup exGetSite exOrchQ
    "site9" "nosuch" (by decide)
  exact ⟨h.1, h.2 (by decide)⟩

/-- **C3**: a `source_id` that is not a key of `configured_sources` makes
every query method fail with the synchronous `KeyError` raised by the
`configured_sources[source_id]` lookup, and the network trace of the
failed call is empty — no network I/O happens before the failure. -/
theorem unknown_source_id_fails_without_network
    (getSite : String → String → Except PyErr FuelLocation)
    (geocode : Rat × Rat → Option GeoAddress)
    (searchSites : String → Rat × Rat → Rat → List LocatedSite)
    (country_map : List (String × List String))
    (o : Orchestrator) (site_id source_id : String)
    (coordinates : Rat × Rat) (radius : Rat) (fuel_type : String)
    (hs : source_id ∉ o.configured_sources) (hne : source_id ≠ "") :
    (FuelPrices.get_fuel_location getSite o site_id source_id).2.1 = []
    ∧ (FuelPrices.get_fuel_location getSite o site_id source_id).2.2
        = .error (.keyError source_id)
    ∧ FuelPrices.find_fuel_locations_from_point geocode searchSites country_map o
        coordinates radius source_id = ([], .error (.keyError source_id))
    ∧ (FuelPrices.find_fuel_from_point geocode searchSites getSite country_map o
        coordinates radius fuel_type source_id).2.1 = []
    ∧ (FuelPrices.find_fuel_from_point geocode searchSites getSite country_map o
        coordinates radius fuel_type source_id).2.2
        = .error (.keyError source_id) := by
  have hloc : FuelPrices.find_fuel_locations_from_point geocode searchSites
      country_map o coordinates radius source_id
      = ([], .error (.keyError source_id)) := by
    unfold FuelPrices.find_fuel_locations_from_point
    rw [if_pos hne, if_neg hs]
  have hget : ∀ r, r = FuelPrices.get_fuel_location getSite o site_id source_id →
      r.2.1 = [] ∧ r.2.2 = .error (.keyError source_id) := by
    intro r hr
    unfold FuelPrices.get_fuel_location at hr
    by_cases hacc : site_id ∈ alist.keys o.accessed_sites
    · rw [if_pos hacc] at hr
      dsimp only at hr
      rw [if_neg hs] at hr
      exact ⟨by rw [hr], by rw [hr]⟩
    · rw [if_neg hacc] at hr
      dsimp only at hr
      rw [if_neg hs] at hr
      exact ⟨by rw [hr], by rw [hr]⟩
  have hfp : FuelPrices.find_fuel_from_point geocode searchSites getSite
      country_map o coordinates radius fuel_type source_id
      = (o, [], .error (.keyError source_id)) := by
    unfold FuelPrices.find_fuel_from_point
    rw [hloc]
  obtain ⟨h1, h2⟩ := hget _ rfl
  exact ⟨h1, h2, hloc, by rw [hfp], by rw [hfp]⟩

/-- Witness for C3: the unconfigured source id `"bogus"` makes all three
query methods fail with `KeyError("bogus")` with an empty network trace. -/
theorem unknown_source_id_fails_witness :
    (FuelPrices.get_fuel_location exGetSite exOrchQ "site1" "bogus").2.1 = []
    ∧ (FuelPrices.get_fuel_location exGetSite exOrchQ "site1" "bogus").2.2
        = .error (.keyError "bogus")
    ∧ FuelPrices.find_fuel_locations_from_point exGeoPointFR exSearchSites
        exCountryMapFR exOrchQ (48, 2) 5 "bogus" = ([], .error (.keyError "bogus"))
    ∧ (FuelPrices.find_fuel_from_point exGeoPointFR exSearchSites exGetSite
        exCountryMapFR exOrchQ (48, 2) 5 "E10" "bogus").2.1 = []
    ∧ (FuelPrices.find_fuel_from_point exGeoPointFR exSearchSites exGetSite
        exCountryMapFR exOrchQ (48, 2) 5 "E10" "bogus").2.2
        = .error (.keyError "bogus") :=
  unknown_source_id_fails_without_network exGetSite exGeoPointFR exSearchSites
    exCountryMapFR exOrchQ "site1" "bogus" (48, 2) 5 "E10" (by decide) (by decide)

/-- **C4** (amended): with no explicit `source_id`, the user-facing
`ValueError("No data source exists for the given coordinates.")` is
raised exactly when the uppercased country code resolved by the reverse
geocode lookup is not a key of the static `COUNTRY_MAP` table; the
network trace up to the failure is the single geocode lookup.  (When the
country is mapped but none of its providers is configured, the call
instead returns a list — see the counterexample.) -/
theorem find_locations_unmapped_country_errors
    (geocode : Rat × Rat → Option GeoAddress)
    (searchSites : String → Rat × Rat → Rat → List LocatedSite)
    (country_map : List (String × List String))
    (o : Orchestrator) (coordinates : Rat × Rat) (radius : Rat)
    (addr : GeoAddress)
    (hg : geocode coordinates = some addr)
    (hm : alist.lookup (upperAscii addr.country_code) country_map = none) :
    FuelPrices.find_fuel_locations_from_point geocode searchSites country_map o
        coordinates radius ""
      = ([.geocodeLookup],
         .error (.valueError "No data source exists for the given coordinates.")) := by
  unfold FuelPrices.find_fuel_locations_from_point
  rw [if_neg (by simp)]
  rw [hg]
  dsimp only
  rw [hm]

/-- Counterexample for **C4**: coordinates resolving to `FR`, which is
mapped in `COUNTRY_MAP`, with no provider configured at all — the set of
applicable configured providers is empty, yet the call returns the empty
list instead of failing with a "no data source" error. -/
theorem find_locations_unconfigured_country_returns_list :
    (FuelPrices.find_fuel_locations_from_point exGeoPointFR exSearchSites
        exCountryMapFR exOrchEmpty (48, 2) 5 "").2 = .ok []
    ∧ ((alist.lookup "FR" exCountryMapFR).getD []).filter
        (fun src => decide (src ∈ exOrchEmpty.configured_sources)) = [] :=
  ⟨rfl, rfl⟩

/-- Witness for the amended C4: a country code `zz` absent from the
`COUNTRY_MAP` model produces the `ValueError`. -/
theorem find_locations_unmapped_country_errors_witness :
    FuelPrices.find_fuel_locations_from_point exGeoPointZZ exSearchSites
        exCountryMapFR exOrchQ (48, 2) 5 ""
      = ([.geocodeLookup],
         .error (.valueError "No data source exists for the given coordinates.")) :=
  find_locations_unmapped_country_errors exGeoPointZZ exSearchSites exCountryMapFR
    exOrchQ (48, 2) 5 ⟨"zz", "00000"⟩ rfl rfl

/-- **C9** (amended): an entry whose price string fails to parse as a
float (`ValueError` inside the `try`) is skipped while every remaining
well-formed entry is parsed, in order — provided each entry carries its
`"prix"` and `"nom"` keys; an entry missing one of those keys raises an
uncaught `KeyError` that aborts the whole call (see the counterexample). -/
theorem parse_fuels_skips_unparseable_prices
    (pfloat : String → Option Rat) (fuels : List RawFuel)
    (h : ∀ f ∈ fuels, (f.get "prix").isSome ∧ (f.get "nom").isSome) :
    QuechoisirSource.parse_fuels pfloat fuels = .ok (fuels.filterMap (fun f =>
      match f.get "prix" with
      | none => none
      | some p =>
        match pfloat (stripCommas p) with
        | none => none
        | some v =>
          match f.get "nom" with
          | none => none
          | some nom => some ⟨nom, v / 1000, f⟩)) := by
  induction fuels with
  | nil => rfl
  | cons f fs ih =>
    obtain ⟨hp0, hn0⟩ := h f (List.mem_cons_self _ _)
    obtain ⟨p, hp⟩ := Option.isSome_iff_exists.mp hp0
    obtain ⟨nom, hn⟩ := Option.isSome_iff_exists.mp hn0
    have ih2 := ih (fun g hg => h g (List.mem_cons_of_mem _ hg))
    unfold QuechoisirSource.parse_fuels
    rw [List.filterMap_cons]
    simp only [hp]
    cases hv : pfloat (stripCommas p) with
    | none => simp only [hv, ih2]
    | some v => simp only [hv, hn, ih2, Except.map]

/-- Counterexample for **C9**: a fuel entry with no `"prix"` key between
two well-formed entries raises `KeyError("prix")`, aborting the parse of
its siblings — even though the same siblings parse fine on their own. -/
theorem parse_fuels_aborts_on_missing_price_key :
    QuechoisirSource.parse_fuels pfloatEx [exRawFuelE10, exRawFuelNoPrix, exRawFuelSP98]
      = .error (.keyError "prix")
    ∧ QuechoisirSource.parse_fuels pfloatEx [exRawFuelE10, exRawFuelSP98]
      = .ok [⟨"E10", 1599 / 1000, exRawFuelE10⟩, ⟨"SP98", 1499 / 1000, exRawFuelSP98⟩] :=
  ⟨rfl, rfl⟩

/-- Witness for the amended C9: an entry whose price string does not
parse as a float is skipped and both its siblings are still parsed. -/
theorem parse_fuels_skips_unparseable_prices_witness :
    QuechoisirSource.parse_fuels pfloatEx
        [exRawFuelE10, exRawFuelBadPrice, exRawFuelSP98]
      = .ok [⟨"E10", 1599 / 1000, exRawFuelE10⟩, ⟨"SP98", 1499 / 1000, exRawFuelSP98⟩] :=
  (parse_fuels_skips_unparseable_prices pfloatEx
    [exRawFuelE10, exRawFuelBadPrice, exRawFuelSP98] (by decide)).trans rfl

/-- **C8**: parsing the same raw station twice with identical upstream
data is idempotent.  If the first `parse_raw_fuel_station` from a
well-formed state (heap addresses below `nextAddr`, no duplicate cache
keys) returns `(st1, a1)`, then the second parse from `st1` returns the
very same state `st1` and the very same heap address `a1` — the existing
entry is merged in place, never replaced — and `location_cache` holds
exactly one entry for the station's site id. -/
theorem parse_raw_fuel_station_idempotent
    (pfloat : String → Option Rat) (st0 st1 : SrcState) (station : RawStation)
    (a1 : Nat)
    (hwf : ∀ p ∈ st0.heap, p.1 < st0.nextAddr)
    (hnd : (alist.keys st0.location_cache).Nodup)
    (h : QuechoisirSource.parse_raw_fuel_station pfloat st0 station = .ok (st1, a1)) :
    QuechoisirSource.parse_raw_fuel_station pfloat st1 station = .ok (st1, a1)
    ∧ (alist.keys st1.location_cache).count
        (QuechoisirSource.provider_name ++ "_" ++ station.id) = 1 := by
  unfold QuechoisirSource.parse_raw_fuel_station at h ⊢
  cases hpf : QuechoisirSource.parse_fuels pfloat station.carburants with
  | error e =>
    rw [hpf] at h
    simp at h
  | ok fuels =>
    rw [hpf] at h
    dsimp only at h ⊢
    cases hl : alist.lookup (QuechoisirSource.provider_name ++ "_" ++ station.id)
        st0.location_cache with
    | none =>
      rw [hl] at h
      dsimp only at h
      simp only [Except.ok.injEq, Prod.mk.injEq] at h
      obtain ⟨hst, ha⟩ := h
      subst ha
      subst hst
      dsimp only
      rw [alist.lookup_append_singleton _ hl]
      dsimp only
      have hheap : alist.lookup st0.nextAddr st0.heap = none := by
        apply (alist.lookup_eq_none_iff _ _).mpr
        intro hmem
        simp only [alist.keys, List.mem_map] at hmem
        obtain ⟨p, hp, hpe⟩ := hmem
        exact absurd (hpe ▸ hwf p hp) (lt_irrefl _)
      rw [alist.lookup_append_singleton _ hheap]
      dsimp only
      rw [FuelLocation.update_self]
      have hset : ∀ (loc : FuelLocation), alist.set
          (st0.heap ++ [(st0.nextAddr, loc)]) st0.nextAddr loc
          = st0.heap ++ [(st0.nextAddr, loc)] := by
        intro loc
        apply alist.set_eq_self
        intro p hp hpk
        rcases List.mem_append.mp hp with hp | hp
        · exact absurd (hpk ▸ hwf p hp) (lt_irrefl _)
        · simp only [List.mem_singleton] at hp
          rw [hp]
      rw [hset]
      refine ⟨rfl, ?_⟩
      have hnotmem : (QuechoisirSource.provider_name ++ "_" ++ station.id)
          ∉ alist.keys st0.location_cache := (alist.lookup_eq_none_iff _ _).mp hl
      have hkeys : alist.keys (st0.location_cache
            ++ [(QuechoisirSource.provider_name ++ "_" ++ station.id, st0.nextAddr)])
          = alist.keys st0.location_cache
            ++ [QuechoisirSource.provider_name ++ "_" ++ station.id] := by
        simp [alist.keys]
      rw [hkeys, List.count_append, List.count_eq_zero.mpr hnotmem]
      simp
    | some a =>
      rw [hl] at h
      dsimp only at h
      cases hh : alist.lookup a st0.heap with
      | none =>
        rw [hh] at h
        exact absurd h (by simp)
      | some old =>
        rw [hh] at h
        dsimp only at h
        simp only [Except.ok.injEq, Prod.mk.injEq] at h
        obtain ⟨hst, ha⟩ := h
        subst ha
        subst hst
        dsimp only
        rw [hl]
        dsimp only
        have hset1 : ∀ (loc : FuelLocation), alist.lookup a (alist.set st0.heap a
            (FuelLocation.update old loc)) = some (FuelLocation.update old loc) := by
          intro loc
          rw [alist.lookup_set_eq, hh]
          rfl
        rw [hset1]
        dsimp only
        rw [FuelLocation.update_self_of_update]
        have hset2 : ∀ (v : FuelLocation), alist.set (alist.set st0.heap a v) a v
            = alist.set st0.heap a v :=
          fun v => alist.set_eq_self (fun p hp hpk => alist.mem_of_mem_set hp hpk)
        rw [hset2]
        refine ⟨rfl, ?_⟩
        have hmem : (QuechoisirSource.provider_name ++ "_" ++ station.id)
            ∈ alist.keys st0.location_cache := by
          by_contra hcon
          rw [(alist.lookup_eq_none_iff _ _).mpr hcon] at hl
          simp at hl
        exact List.count_eq_one_of_mem hnd hmem

/-- Witness for C8: re-parsing `exStation` from the state produced by its
first parse returns the identical state and address 0, with a single
cache entry for `quechoisir_1`. -/
theorem parse_raw_fuel_station_idempotent_witness :
    QuechoisirSource.parse_raw_fuel_station pfloatEx exSt1 exStation = .ok (exSt1, 0)
    ∧ (alist.keys exSt1.location_cache).count
        (QuechoisirSource.provider_name ++ "_" ++ exStation.id) = 1 :=
  parse_raw_fuel_station_idempotent pfloatEx exEmptySrc exSt1 exStation 0
    (fun p hp => absurd hp (List.not_mem_nil p))
    (by decide)
    rfl

/-- **C7**: `search_sites` runs the implicit `update` pass and then
returns exactly the cached locations whose distance from the coordinates
is strictly below `radius` — a record `⟨s, d⟩` is in the result iff `s`
is cached, `d` is the computed distance of `s`, and `d < radius` (so a
site at distance exactly `radius` is excluded and one strictly inside is
included) — and each site within the bound occurs in the result as often
as it occurs in the cache, augmented with its distance. -/
theorem search_sites_strictly_within_radius
    (geocodeA : Area → Option GeoAddress)
    (lookupCid : String → Option String)
    (fetchStations : String → String → Option (List RawStation))
    (dist : Rat × Rat → Rat × Rat → Rat)
    (st : SrcState) (coordinates : Rat × Rat) (radius : Rat) :
    (∀ (s : FuelLocation) (d : Rat),
      (⟨s, d⟩ : LocatedSite) ∈ (QuechoisirSource.search_sites geocodeA lookupCid
          fetchStations dist st coordinates radius).2
        ↔ (s ∈ QuechoisirSource.cacheValues
              (QuechoisirSource.search_sites geocodeA lookupCid fetchStations dist
                st coordinates radius).1
            ∧ d = dist coordinates (s.lat, s.long)
            ∧ d < radius))
    ∧ (∀ s : FuelLocation, dist coordinates (s.lat, s.long) < radius →
        ((QuechoisirSource.search_sites geocodeA lookupCid fetchStations dist st
            coordinates radius).2).count ⟨s, dist coordinates (s.lat, s.long)⟩
          = (QuechoisirSource.cacheValues
              (QuechoisirSource.search_sites geocodeA lookupCid fetchStations dist
                st coordinates radius).1).count s) := by
  unfold QuechoisirSource.search_sites
  constructor
  · intro s d
    constructor
    · intro hmem
      obtain ⟨a, ha, hfa⟩ := List.mem_filterMap.mp hmem
      dsimp only at hfa
      by_cases hd : dist coordinates (a.lat, a.long) < radius
      · rw [if_pos hd] at hfa
        injection hfa with h2
        have has : a = s := congrArg LocatedSite.site h2
        have had : dist coordinates (a.lat, a.long) = d :=
          congrArg LocatedSite.distance h2
        subst has
        exact ⟨ha, had.symm, had ▸ hd⟩
      · rw [if_neg hd] at hfa
        simp at hfa
    · rintro ⟨hs, rfl, hlt⟩
      refine List.mem_filterMap.mpr ⟨s, hs, ?_⟩
      dsimp only
      rw [if_pos hlt]
  · intro s hlt
    rw [List.count_filterMap, List.count_eq_countP]
    apply List.countP_congr
    intro a _
    dsimp only
    constructor
    · intro hfa
      rw [beq_iff_eq] at hfa ⊢
      by_cases hd : dist coordinates (a.lat, a.long) < radius
      · rw [if_pos hd] at hfa
        injection hfa with h2
        exact congrArg LocatedSite.site h2
      · rw [if_neg hd] at hfa
        simp at hfa
    · intro ha
      rw [beq_iff_eq] at ha ⊢
      subst ha
      rw [if_pos hlt]

/-- Witness for C7: with a cache holding a site exactly 5 miles away and
a site 4 miles away and `radius = 5`, the nearby site appears with its
distance and the boundary site is excluded. -/
theorem search_sites_strictly_within_radius_witness :
    (⟨exSiteNear, 4⟩ : LocatedSite) ∈ (QuechoisirSource.search_sites exGeocodeNone
        exLookupCid exFetchNone exDist exSrcTwoSites (0, 0) 5).2
    ∧ (⟨exSiteFar, 5⟩ : LocatedSite) ∉ (QuechoisirSource.search_sites exGeocodeNone
        exLookupCid exFetchNone exDist exSrcTwoSites (0, 0) 5).2 := by
  have h := search_sites_strictly_within_radius exGeocodeNone exLookupCid exFetchNone
    exDist exSrcTwoSites (0, 0) 5
  constructor
  · exact (h.1 exSiteNear 4).mpr ⟨by decide, by decide, by decide⟩
  · intro hmem
    exact absurd ((h.1 exSiteFar 5).mp hmem).2.2 (by decide)

/-! ## Properties of the stable sort used by `find_fuel_from_point` -/

theorem sortedInsert_perm (r : FuelRec) (l : List FuelRec) :
    (FuelPrices.sortedInsertByCost r l).Perm (r :: l) := by
  induction l with
  | nil => exact List.Perm.refl _
  | cons x xs ih =>
    unfold FuelPrices.sortedInsertByCost
    by_cases hc : x.cost ≤ r.cost
    · rw [if_pos hc]
      exact (ih.cons x).trans (List.Perm.swap r x xs)
    · rw [if_neg hc]

theorem sortedInsert_pairwise (r : FuelRec) (l : List FuelRec)
    (h : l.Pairwise (fun a b => a.cost ≤ b.cost)) :
    (FuelPrices.sortedInsertByCost r l).Pairwise (fun a b => a.cost ≤ b.cost) := by
  induction l with
  | nil => simp [FuelPrices.sortedInsertByCost]
  | cons x xs ih =>
    rw [List.pairwise_cons] at h
    obtain ⟨hx, hxs⟩ := h
    unfold FuelPrices.sortedInsertByCost
    by_cases hc : x.cost ≤ r.cost
    · rw [if_pos hc, List.pairwise_cons]
      constructor
      · intro b hb
        rcases List.mem_cons.mp ((sortedInsert_perm r xs).mem_iff.mp hb) with rfl | hb'
        · exact hc
        · exact hx b hb'
      · exact ih hxs
    · rw [if_neg hc, List.pairwise_cons]
      constructor
      · intro b hb
        rcases List.mem_cons.mp hb with rfl | hb'
        · exact le_of_not_le hc
        · exact le_trans (le_of_not_le hc) (hx b hb')
      · exact List.pairwise_cons.mpr ⟨hx, hxs⟩

theorem sortByCost_perm (l : List FuelRec) : (FuelPrices.sortByCost l).Perm l := by
  suffices h : ∀ (acc : List FuelRec),
      (l.foldl (fun acc r => FuelPrices.sortedInsertByCost r acc) acc).Perm
        (acc ++ l) by
    simpa using h []
  induction l with
  | nil => intro acc; simp
  | cons r rs ih =>
    intro acc
    rw [List.foldl_cons]
    have h1 : (FuelPrices.sortedInsertByCost r acc ++ rs).Perm ((r :: acc) ++ rs) :=
      (sortedInsert_perm r acc).append_right rs
    have h3 : (r :: (acc ++ rs)).Perm (acc ++ r :: rs) := List.perm_middle.symm
    exact ((ih _).trans h1).trans h3

theorem sortByCost_pairwise (l : List FuelRec) :
    (FuelPrices.sortByCost l).Pairwise (fun a b => a.cost ≤ b.cost) := by
  suffices h : ∀ (acc : List FuelRec),
      acc.Pairwise (fun a b => a.cost ≤ b.cost) →
      (l.foldl (fun acc r => FuelPrices.sortedInsertByCost r acc) acc).Pairwise
        (fun a b => a.cost ≤ b.cost) from h [] (by simp)
  induction l with
  | nil => intro acc hacc; exact hacc
  | cons r rs ih =>
    intro acc hacc
    rw [List.foldl_cons]
    exact ih _ (sortedInsert_pairwise r acc hacc)

theorem filter_sortedInsert_of_ne (r : FuelRec) (c : Rat) (hc : r.cost ≠ c)
    (l : List FuelRec) :
    (FuelPrices.sortedInsertByCost r l).filter (fun x => decide (x.cost = c))
      = l.filter (fun x => decide (x.cost = c)) := by
  induction l with
  | nil => simp [FuelPrices.sortedInsertByCost, hc]
  | cons x xs ih =>
    unfold FuelPrices.sortedInsertByCost
    by_cases hle : x.cost ≤ r.cost
    · rw [if_pos hle]
      simp only [List.filter_cons, ih]
    · rw [if_neg hle]
      simp only [List.filter_cons, decide_eq_true_eq]
      rw [if_neg (by simpa using hc)]

theorem filter_sortedInsert_of_eq (r : FuelRec) (c : Rat) (hc : r.cost = c)
    (l : List FuelRec) (hl : l.Pairwise (fun a b => a.cost ≤ b.cost)) :
    (FuelPrices.sortedInsertByCost r l).filter (fun x => decide (x.cost = c))
      = l.filter (fun x => decide (x.cost = c)) ++ [r] := by
  induction l with
  | nil => simp [FuelPrices.sortedInsertByCost, hc]
  | cons x xs ih =>
    rw [List.pairwise_cons] at hl
    obtain ⟨hx, hxs⟩ := hl
    unfold FuelPrices.sortedInsertByCost
    by_cases hle : x.cost ≤ r.cost
    · rw [if_pos hle]
      simp only [List.filter_cons, ih hxs]
      by_cases hpx : x.cost = c
      · simp [hpx]
      · simp [hpx]
    · rw [if_neg hle]
      have hnone : (x :: xs).filter (fun y => decide (y.cost = c)) = [] := by
        rw [List.filter_eq_nil_iff]
        intro y hy
        simp only [decide_eq_true_eq]
        intro hyc
        have hxy : x.cost ≤ y.cost := by
          rcases List.mem_cons.mp hy with rfl | hy'
          · exact le_refl _
          · exact hx y hy'
        exact hle (le_of_le_of_eq hxy (hyc.trans hc.symm))
      rw [List.filter_cons, hnone]
      simp [hc]

theorem sortByCost_stable (l : List FuelRec) (c : Rat) :
    (FuelPrices.sortByCost l).filter (fun x => decide (x.cost = c))
      = l.filter (fun x => decide (x.cost = c)) := by
  suffices h : ∀ (acc : List FuelRec),
      acc.Pairwise (fun a b => a.cost ≤ b.cost) →
      (l.foldl (fun acc r => FuelPrices.sortedInsertByCost r acc) acc).filter
          (fun x => decide (x.cost = c))
        = acc.filter (fun x => decide (x.cost = c))
          ++ l.filter (fun x => decide (x.cost = c)) by
    simpa using h [] (by simp)
  induction l with
  | nil => intro acc _; simp
  | cons r rs ih =>
    intro acc hacc
    rw [List.foldl_cons, ih _ (sortedInsert_pairwise r acc hacc), List.filter_cons]
    by_cases hrc : r.cost = c
    · rw [filter_sortedInsert_of_eq r c hrc acc hacc]
      simp [hrc]
    · rw [filter_sortedInsert_of_ne r c hrc acc]
      simp [hrc]

/-! ## Collection step of `find_fuel_from_point` -/

theorem filterMap_if_single {α : Type} (ft : String) (g : Option α)
    (ks : List String) (h : ks.Nodup) :
    ks.filterMap (fun k => if k = ft then g else none)
      = if ft ∈ ks then g.toList else [] := by
  induction ks with
  | nil => simp
  | cons k ks ih =>
    rw [List.nodup_cons] at h
    obtain ⟨hk, hnd⟩ := h
    rw [List.filterMap_cons]
    by_cases hkf : k = ft
    · subst hkf
      have hrest : ks.filterMap (fun x => if x = k then g else none) = [] := by
        rw [List.filterMap_eq_nil_iff]
        intro a ha
        have hak : ¬(a = k) := fun hak => hk (by rw [← hak]; exact ha)
        rw [if_neg hak]
      rw [if_pos rfl]
      cases g with
      | none => simp [hrest]
      | some x => simp [hrest]
    · rw [if_neg hkf, ih hnd]
      by_cases hftm : ft ∈ ks
      · rw [if_pos hftm, if_pos (List.mem_cons_of_mem _ hftm)]
      · rw [if_neg hftm, if_neg (by
          intro hm
          rcases List.mem_cons.mp hm with he | hm'
          · exact hkf he.symm
          · exact hftm hm')]

theorem locFuelRecords_eq_spec (fuel_type : String) (l : LocatedSite)
    (h : (alist.keys l.site.available_fuels).Nodup) :
    FuelPrices.locFuelRecords fuel_type l
      = (specQualifyingRecord fuel_type l).toList := by
  unfold FuelPrices.locFuelRecords specQualifyingRecord
  have hfun : ∀ k ∈ alist.keys l.site.available_fuels,
      (if k = fuel_type then
        match alist.lookup k l.site.available_fuels with
        | some c => if 0 < c then some (⟨l.site.name, c, l.distance⟩ : FuelRec)
                    else none
        | none => none
      else none)
      = (if k = fuel_type then
        match alist.lookup fuel_type l.site.available_fuels with
        | some c => if 0 < c then some (⟨l.site.name, c, l.distance⟩ : FuelRec)
                    else none
        | none => none
      else none) := by
    intro k _
    by_cases hk : k = fuel_type
    · subst hk; rfl
    · rw [if_neg hk, if_neg hk]
  rw [List.filterMap_congr hfun, filterMap_if_single _ _ _ h]
  by_cases hm : fuel_type ∈ alist.keys l.site.available_fuels
  · rw [if_pos hm]
  · rw [if_neg hm, (alist.lookup_eq_none_iff _ _).mpr hm]
    rfl

theorem flatMap_toList_eq_filterMap {α β : Type} (f : α → Option β) (l : List α) :
    l.flatMap (fun a => (f a).toList) = l.filterMap f := by
  induction l with
  | nil => rfl
  | cons a as ih =>
    rw [List.flatMap_cons, List.filterMap_cons, ih]
    cases f a <;> simp

theorem collect_eq_spec (fuel_type : String) (locations : List LocatedSite)
    (h : ∀ l ∈ locations, (alist.keys l.site.available_fuels).Nodup) :
    locations.flatMap (FuelPrices.locFuelRecords fuel_type)
      = locations.filterMap (specQualifyingRecord fuel_type) := by
  induction locations with
  | nil => rfl
  | cons l ls ih =>
    rw [List.flatMap_cons, locFuelRecords_eq_spec _ _ (h l (List.mem_cons_self _ _)),
      ih (fun x hx => h x (List.mem_cons_of_mem _ hx)), List.filterMap_cons]
    cases specQualifyingRecord fuel_type l <;> simp

/-- **C1**: when `find_fuel_from_point` succeeds, its result list is a
permutation of the spec-side projection — exactly one `{name, cost,
distance}` record per location of the point-query result whose
`available_fuels` has a strictly positive entry for `fuel_type` — it is
sorted ascending by `cost`, and it is stable: for every cost value the
sub-list of records with that cost appears in the original order of the
locations.  The hypothesis that each location's `available_fuels` has no
duplicate fuel-type keys is the Python `dict` invariant. -/
theorem find_fuel_from_point_sorted_stable
    (geocode : Rat × Rat → Option GeoAddress)
    (searchSites : String → Rat × Rat → Rat → List LocatedSite)
    (getSite : String → String → Except PyErr FuelLocation)
    (country_map : List (String × List String))
    (o o2 : Orchestrator) (coordinates : Rat × Rat) (radius : Rat)
    (fuel_type source_id : String) (effs0 effs : List NetOp)
    (locations : List LocatedSite) (res : List FuelRec)
    (hloc : FuelPrices.find_fuel_locations_from_point geocode searchSites country_map
        o coordinates radius source_id = (effs0, .ok locations))
    (hrun : FuelPrices.find_fuel_from_point geocode searchSites getSite country_map
        o coordinates radius fuel_type source_id = (o2, effs, .ok res))
    (hnd : ∀ l ∈ locations, (alist.keys l.site.available_fuels).Nodup) :
    res.Perm (locations.filterMap (specQualifyingRecord fuel_type))
    ∧ res.Pairwise (fun a b => a.cost ≤ b.cost)
    ∧ ∀ c : Rat, res.filter (fun r => decide (r.cost = c))
        = (locations.filterMap (specQualifyingRecord fuel_type)).filter
            (fun r => decide (r.cost = c)) := by
  have hres : res = FuelPrices.find_fuel_from_point_fuels locations fuel_type := by
    unfold FuelPrices.find_fuel_from_point at hrun
    rw [hloc] at hrun
    dsimp only at hrun
    rcases hdb : FuelPrices.dynamic_build_all getSite o effs0 locations
      with ⟨o1, effs1, err⟩
    rw [hdb] at hrun
    cases err with
    | some e => simp at hrun
    | none =>
      dsimp only at hrun
      have h3 := congrArg (fun t => t.2.2) hrun
      dsimp only at h3
      simp only [Except.ok.injEq] at h3
      exact h3.symm
  subst hres
  have hcollect := collect_eq_spec fuel_type locations hnd
  unfold FuelPrices.find_fuel_from_point_fuels
  rw [hcollect]
  exact ⟨sortByCost_perm _, sortByCost_pairwise _, fun c => sortByCost_stable _ c⟩

/-- Witness for C1: a concrete run with stations A (cost 150) and B
(cost 130) within radius — B precedes A in the result, which matches the
spec-side projection up to the stable sort. -/
theorem find_fuel_from_point_sorted_stable_witness :
    exRes.Perm (exLocs.filterMap (specQualifyingRecord "E10"))
    ∧ exRes.Pairwise (fun a b => a.cost ≤ b.cost)
    ∧ ∀ c : Rat, exRes.filter (fun r => decide (r.cost = c))
        = (exLocs.filterMap (specQualifyingRecord "E10")).filter
            (fun r => decide (r.cost = c)) :=
  find_fuel_from_point_sorted_stable exGeoPointNone exSearchSites exGetSite
    exCountryMapFR exOrchQ exOrchRes (0, 0) 5 "E10" "quechoisir"
    [.searchSites "quechoisir"] exEffs exLocs exRes rfl rfl (by decide)

end PyFuelPrices
